import Mathlib

/-!
A shallow embedding of the issuefs FUSE filesystem (issuefs.py together
with the issue_api clients), covering the parts of the program exercised
by the verified properties: query-folder configuration, YAML decoding as
observed through dictionary access with defaults, the refresh algorithm
`update_issues`, the FUSE operations `mkdir`, `rmdir`, `open`, `readdir`,
`write`, `flush`, `release` and `unlink`, and the persistent-store
round-trip `_save_config` / `_load_config`.

Modelling conventions:
* Python dictionaries keyed by strings become insertion-ordered
  association lists (`alookup` / `aset` / `aerase`).
* Backend HTTP clients are oracles: each call returns
  `Except Unit _`, where `Except.error` stands for a raised exception
  (caught by the caller where the source catches it).
* `yaml.safe_load` is external; its outcome is abstracted by
  `ParseResult`: `err` for a raised `yaml.YAMLError`, `empty` for a
  falsy document (`None`), and `ok d` for a truthy mapping.  A mapping
  is represented by the values the source reads out of it with
  `dict.get(key, default)`; a backend entry whose list is missing,
  empty or not a list is `none` (the source substitutes the default
  configuration in each of those cases).
* `time.time()` is an external `now : Nat` parameter.
-/

namespace IssueFS

/-- A cached issue record.  Only the universal key (`issue.key`, set by
the `issue_api` constructors: JIRA keys verbatim, `GITHUB-<n>`,
`BUGZILLA-<n>`) is relevant to the filesystem logic. -/
structure Issue where
  key : String
deriving DecidableEq, Repr

/-- JIRA backend configuration as observed through
`jira_config.get('jql', '')` and `jira_config.get('issues', [])`. -/
structure JiraConfig where
  jql : String
  issues : List String
deriving DecidableEq, Repr

/-- GitHub backend configuration (`repo`, `q`, `issues`). -/
structure GithubConfig where
  repo : String
  q : String
  issues : List String
deriving DecidableEq, Repr

/-- Bugzilla backend configuration (`query`, `issues`). -/
structure BugzillaConfig where
  query : String
  issues : List String
deriving DecidableEq, Repr

/-- `QueryFolder`: name, flags, per-backend configuration, cached
issues and the `last_updated` stamp (issuefs.py lines 56-67). -/
structure QueryFolder where
  name : String
  enabled : Bool
  persistent : Bool
  jira_config : JiraConfig
  github_config : GithubConfig
  bugzilla_config : BugzillaConfig
  issues : List Issue
  last_updated : Nat
deriving DecidableEq, Repr

/-- `QueryFolder.__init__`: the default folder state. -/
def QueryFolder.init (name : String) : QueryFolder :=
  ⟨name, false, false, ⟨"", []⟩, ⟨"", "", []⟩, ⟨"", []⟩, [], 0⟩

/-- A successfully parsed, truthy `config.yaml` document, represented
by the values `from_yaml` reads from it.  A backend field is `none`
when the key is absent, not a list, or an empty list (the source then
installs the default configuration). -/
structure ConfigDoc where
  enabled : Bool
  persistent : Bool
  jira : Option JiraConfig
  github : Option GithubConfig
  bugzilla : Option BugzillaConfig
deriving DecidableEq, Repr

/-- Outcome of decoding a buffered `config.yaml`:
`err` = `yaml.YAMLError` raised (caught by `from_yaml`),
`empty` = falsy document, `ok` = truthy mapping. -/
inductive ParseResult where
  | err : ParseResult
  | empty : ParseResult
  | ok : ConfigDoc → ParseResult
deriving DecidableEq, Repr

/-- `QueryFolder.from_yaml` (issuefs.py lines 81-125): on a parse
error or a falsy document nothing is mutated; otherwise every
configuration field is replaced, with defaults for missing backend
entries.  The cached `issues` and `last_updated` are untouched. -/
def from_yaml (f : QueryFolder) (r : ParseResult) : QueryFolder :=
  match r with
  | ParseResult.err => f
  | ParseResult.empty => f
  | ParseResult.ok d =>
    { f with
      enabled := d.enabled
      persistent := d.persistent
      jira_config := d.jira.getD ⟨"", []⟩
      github_config := d.github.getD ⟨"", "", []⟩
      bugzilla_config := d.bugzilla.getD ⟨"", []⟩ }

/-- JIRA client oracle (`issue_api/jira_api.py`): `search` and
`get_issue`; `Except.error` models a raised exception, `Except.ok none`
a lookup that returned `None`. -/
structure JiraClient where
  search : String → Except Unit (List Issue)
  get_issue : String → Except Unit (Option Issue)

/-- GitHub client oracle; both calls also take the repository. -/
structure GithubClient where
  search : String → String → Except Unit (List Issue)
  get_issue : String → String → Except Unit (Option Issue)

/-- Bugzilla client oracle. -/
structure BugzillaClient where
  search : String → Except Unit (List Issue)
  get_issue : String → Except Unit (Option Issue)

/-- The `clients` dictionary: each entry is present or absent. -/
structure Clients where
  jira : Option JiraClient
  github : Option GithubClient
  bugzilla : Option BugzillaClient

/-- Accumulator of `update_issues`: the issue list being built and the
`seen_keys` set (modelled as the list of keys added so far). -/
abbrev Acc := List Issue × List String

/-- One iteration of the query-result loop: the issue is appended only
if its key has not been seen (issuefs.py lines 189-192). -/
def queryStep (acc : Acc) (i : Issue) : Acc :=
  if acc.2.contains i.key then acc
  else (acc.1 ++ [i], acc.2 ++ [i.key])

/-- Appending the results of one `search` call. -/
def addQueryResults (st : Acc) (qs : List Issue) : Acc :=
  qs.foldl queryStep st

/-- One iteration of the explicit-id loop for JIRA / Bugzilla
(issuefs.py lines 213-236): the raw id is first tested against
`seen_keys`; a raised exception or a `None` result contributes
nothing; on success the fetched issue's key is recorded. -/
def explicitStep (getI : String → Except Unit (Option Issue)) (acc : Acc)
    (issue_id : String) : Acc :=
  if acc.2.contains issue_id then acc
  else
    match getI issue_id with
    | Except.error _ => acc
    | Except.ok none => acc
    | Except.ok (some i) => (acc.1 ++ [i], acc.2 ++ [i.key])

/-- Fetching all explicitly listed ids for JIRA / Bugzilla. -/
def addExplicit (getI : String → Except Unit (Option Issue)) (st : Acc)
    (ids : List String) : Acc :=
  ids.foldl (explicitStep getI) st

/-- One iteration of the explicit-id loop for GitHub: additionally
skipped when no repository is configured (issuefs.py lines 217-223). -/
def githubExplicitStep (getI : String → String → Except Unit (Option Issue))
    (repo : String) (acc : Acc) (issue_id : String) : Acc :=
  if acc.2.contains issue_id then acc
  else if repo = "" then acc
  else
    match getI issue_id repo with
    | Except.error _ => acc
    | Except.ok none => acc
    | Except.ok (some i) => (acc.1 ++ [i], acc.2 ++ [i.key])

/-- Fetching all explicitly listed ids for GitHub. -/
def addExplicitGithub (getI : String → String → Except Unit (Option Issue))
    (repo : String) (st : Acc) (ids : List String) : Acc :=
  ids.foldl (githubExplicitStep getI repo) st

/-- Processing the JIRA tracker: skipped entirely when the client is
absent; the query runs when `jql` is truthy, a raised exception being
caught; then the explicit ids. -/
def processJira (c : Option JiraClient) (cfg : JiraConfig) (st : Acc) : Acc :=
  match c with
  | none => st
  | some cl =>
    let st1 :=
      if cfg.jql ≠ "" then
        match cl.search cfg.jql with
        | Except.error _ => st
        | Except.ok qs => addQueryResults st qs
      else st
    addExplicit cl.get_issue st1 cfg.issues

/-- Processing the GitHub tracker: the query runs only when both `q`
and `repo` are truthy. -/
def processGithub (c : Option GithubClient) (cfg : GithubConfig) (st : Acc) : Acc :=
  match c with
  | none => st
  | some cl =>
    let st1 :=
      if cfg.q ≠ "" ∧ cfg.repo ≠ "" then
        match cl.search cfg.q cfg.repo with
        | Except.error _ => st
        | Except.ok qs => addQueryResults st qs
      else st
    addExplicitGithub cl.get_issue cfg.repo st1 cfg.issues

/-- Processing the Bugzilla tracker (query key `query`). -/
def processBugzilla (c : Option BugzillaClient) (cfg : BugzillaConfig) (st : Acc) : Acc :=
  match c with
  | none => st
  | some cl =>
    let st1 :=
      if cfg.query ≠ "" then
        match cl.search cfg.query with
        | Except.error _ => st
        | Except.ok qs => addQueryResults st qs
      else st
    addExplicit cl.get_issue st1 cfg.issues

/-- `has_valid_config` of `update_issues` (issuefs.py lines 238-253):
some backend has a usable configuration.  For GitHub this needs the
repository together with either the query or explicit ids. -/
def has_valid_config (f : QueryFolder) : Bool :=
  ((f.jira_config.jql != "") || (f.jira_config.issues != ([] : List String)))
  || (((f.github_config.q != "") && (f.github_config.repo != ""))
      || ((f.github_config.repo != "") && (f.github_config.issues != ([] : List String))))
  || ((f.bugzilla_config.query != "") || (f.bugzilla_config.issues != ([] : List String)))

/-- `QueryFolder.update_issues` (issuefs.py lines 127-260): clears the
cache and stamps `last_updated`, returns at once when disabled,
otherwise processes the trackers in the fixed order jira, github,
bugzilla, and finally clears the result again when no backend had a
usable configuration. -/
def update_issues (f : QueryFolder) (cs : Clients) (now : Nat) : QueryFolder :=
  let f0 := { f with issues := ([] : List Issue), last_updated := now }
  if !f0.enabled then f0
  else
    let st1 := processJira cs.jira f0.jira_config (([] : List Issue), ([] : List String))
    let st2 := processGithub cs.github f0.github_config st1
    let st3 := processBugzilla cs.bugzilla f0.bugzilla_config st2
    if has_valid_config f0 then { f0 with issues := st3.1 }
    else { f0 with issues := ([] : List Issue) }

/-! ### Association lists: the model of Python string-keyed dicts -/

/-- Python `d[k]` / `k in d` lookup. -/
def alookup {α : Type} (m : List (String × α)) (k : String) : Option α :=
  match m with
  | [] => none
  | (k1, v) :: rest => if k1 = k then some v else alookup rest k

/-- Python `d[k] = v`: replace in place, or append a new binding. -/
def aset {α : Type} (m : List (String × α)) (k : String) (v : α) :
    List (String × α) :=
  match m with
  | [] => [(k, v)]
  | (k1, v1) :: rest =>
    if k1 = k then (k, v) :: rest else (k1, v1) :: aset rest k v

/-- Python `del d[k]` (keys are unique by construction). -/
def aerase {α : Type} (m : List (String × α)) (k : String) :
    List (String × α) :=
  match m with
  | [] => []
  | (k1, v1) :: rest =>
    if k1 = k then rest else (k1, v1) :: aerase rest k

/-! ### Path handling -/

/-- Python `path.strip('/')`, as a character list. -/
def stripSlashes (s : String) : List Char :=
  ((s.toList.dropWhile (fun c => c == '/')).reverse.dropWhile
    (fun c => c == '/')).reverse

/-- Python `str.split('/')`: split on every slash, adjacent slashes
yielding empty components (the accumulator holds the current component
reversed). -/
def splitSlash : List Char → List Char → List String
  | [], acc => [String.mk acc.reverse]
  | c :: rest, acc =>
    if c == '/' then String.mk acc.reverse :: splitSlash rest []
    else splitSlash rest (c :: acc)

/-- `path.strip('/').split('/')` (never empty: splitting the empty
string yields one empty component, as in Python). -/
def pathParts (path : String) : List String :=
  splitSlash (stripSlashes path) []

/-- Python `str.endswith(suffix)`. -/
def strEndsWith (s suffix : String) : Bool :=
  suffix.toList.isSuffixOf s.toList

/-- `IssueFS._get_folder_from_path`: the first component when truthy. -/
def folderFromPath (path : String) : Option String :=
  match pathParts path with
  | [] => none
  | p :: _ => if p = "" then none else some p

/-- `IssueFS._get_filename_from_path`: the second component when the
path has at least two components (it may be the empty string). -/
def fileFromPath (path : String) : Option String :=
  match pathParts path with
  | _ :: f :: _ => some f
  | _ => none

/-- Python truthiness of an optional string (`None` and `''` falsy). -/
def optTruthy (o : Option String) : Bool :=
  match o with
  | none => false
  | some s => s != ""

/-- `IssueFS._is_config_file`: the filename component equals
`config.yaml`. -/
def is_config_file (path : String) : Bool :=
  fileFromPath path == some ("config.yaml")

/-! ### Filesystem state and FUSE operations -/

/-- Errno values raised through `FuseOSError` by the modelled
operations. -/
inductive FuseError where
  | ENOENT : FuseError
  | EEXIST : FuseError
  | EACCES : FuseError
deriving DecidableEq, Repr

/-- The mutable state of an `IssueFS` instance: the folder map and the
per-path write buffers (`file_handles`). -/
structure FSState where
  folders : List (String × QueryFolder)
  file_handles : List (String × List Nat)
deriving DecidableEq, Repr

/-- `IssueFS.mkdir` (issuefs.py lines 682-696): only truthy root-level
names; an existing name raises `EEXIST`; anything nested (truthy
second component) raises `EACCES`. -/
def mkdir (st : FSState) (path : String) : Except FuseError FSState :=
  match folderFromPath path with
  | some fname =>
    if optTruthy (fileFromPath path) then Except.error FuseError.EACCES
    else
      match alookup st.folders fname with
      | some _ => Except.error FuseError.EEXIST
      | none =>
        Except.ok
          { st with folders := aset st.folders fname (QueryFolder.init fname) }
  | none => Except.error FuseError.EACCES

/-- `IssueFS.rmdir` (issuefs.py lines 698-711): removes the folder map
entry only; unknown names raise `ENOENT`, nested paths `EACCES`. -/
def rmdir (st : FSState) (path : String) : Except FuseError FSState :=
  match folderFromPath path with
  | some fname =>
    if optTruthy (fileFromPath path) then Except.error FuseError.EACCES
    else
      match alookup st.folders fname with
      | some _ => Except.ok { st with folders := aerase st.folders fname }
      | none => Except.error FuseError.ENOENT
  | none => Except.error FuseError.EACCES

/-- `IssueFS.open` (issuefs.py lines 713-732).  Named `fsOpen` because
`open` is reserved in Lean. -/
def fsOpen (st : FSState) (path : String) : Except FuseError Nat :=
  if path = "/version.txt" then Except.ok 0
  else
    match folderFromPath path with
    | none => Except.error FuseError.ENOENT
    | some fname =>
      match fileFromPath path with
      | none => Except.error FuseError.ENOENT
      | some filename =>
        if filename = "" then Except.error FuseError.ENOENT
        else
          match alookup st.folders fname with
          | none => Except.error FuseError.ENOENT
          | some _ =>
            if filename = "config.yaml" || strEndsWith filename (".txt") then
              Except.ok 0
            else Except.error FuseError.ENOENT

/-- `IssueFS.readdir` (issuefs.py lines 661-680), in yield order. -/
def readdir (st : FSState) (path : String) : List String :=
  [".", ".."] ++
    (if path = "/" then "version.txt" :: st.folders.map Prod.fst
     else
       match folderFromPath path with
       | some fname =>
         match alookup st.folders fname with
         | some folder =>
           "config.yaml" :: folder.issues.map (fun i => i.key ++ ".txt")
         | none => []
       | none => [])

/-- `IssueFS.write` (issuefs.py lines 762-785): only `config.yaml` of
an existing folder is writable; the data is spliced into a per-path
buffer that is zero-extended as needed.  Returns the new state and the
byte count. -/
def write (st : FSState) (path : String) (data : List Nat) (offset : Nat) :
    Except FuseError (FSState × Nat) :=
  if !is_config_file path then Except.error FuseError.EACCES
  else
    match folderFromPath path with
    | none => Except.error FuseError.ENOENT
    | some fname =>
      match alookup st.folders fname with
      | none => Except.error FuseError.ENOENT
      | some _ =>
        let buf0 := (alookup st.file_handles path).getD []
        let buf1 :=
          if offset + data.length > buf0.length then
            buf0 ++ List.replicate (offset + data.length - buf0.length) 0
          else buf0
        let buf2 := buf1.take offset ++ data ++ buf1.drop (offset + data.length)
        Except.ok
          ({ st with file_handles := aset st.file_handles path buf2 },
            data.length)

/-- `IssueFS.release` (issuefs.py lines 868-872): discards the buffer. -/
def release (st : FSState) (path : String) : FSState :=
  { st with file_handles := aerase st.file_handles path }

/-- `IssueFS.unlink` (issuefs.py lines 874-876): always `EACCES`. -/
def unlink (st : FSState) (path : String) : Except FuseError FSState :=
  Except.error FuseError.EACCES

/-- The eight-field configuration diff computed by `IssueFS.flush`
(`config_changed`, issuefs.py lines 841-850): `enabled` plus each
backend's query fields and explicit-id list.  `persistent` is not
among the compared fields. -/
def config_changed (old new : QueryFolder) : Bool :=
  (old.enabled != new.enabled)
  || (old.jira_config.jql != new.jira_config.jql)
  || (old.jira_config.issues != new.jira_config.issues)
  || (old.github_config.repo != new.github_config.repo)
  || (old.github_config.q != new.github_config.q)
  || (old.github_config.issues != new.github_config.issues)
  || (old.bugzilla_config.query != new.bugzilla_config.query)
  || (old.bugzilla_config.issues != new.bugzilla_config.issues)

/-- The validity test written twice inside `IssueFS.flush` (as
`has_jira_config or has_github_config or has_bugzilla_config` on lines
855-859 and inline in the `elif` on lines 862-864; both spell the same
condition): some backend has a query or explicit ids, where GitHub
additionally needs the repository. -/
def has_any_config (f : QueryFolder) : Bool :=
  ((f.jira_config.jql != "") || (f.jira_config.issues != ([] : List String)))
  || ((f.github_config.repo != "")
      && ((f.github_config.q != "") || (f.github_config.issues != ([] : List String))))
  || ((f.bugzilla_config.query != "") || (f.bugzilla_config.issues != ([] : List String)))

/-- The per-folder effect of `IssueFS.flush` once the buffered bytes
have been decoded (issuefs.py lines 819-866): apply `from_yaml`, diff
the tracked fields, and either refresh, clear, or leave the cache.
Note the branch structure of the source: when the folder is enabled
and a tracked field changed but no backend has a usable configuration,
neither branch body runs and the stale cache is retained. -/
def flushFolder (cs : Clients) (now : Nat) (folder : QueryFolder)
    (r : ParseResult) : QueryFolder :=
  let f1 := from_yaml folder r
  if f1.enabled && config_changed folder f1 then
    if has_any_config f1 then update_issues f1 cs now else f1
  else if !f1.enabled || !(has_any_config f1) then
    { f1 with issues := ([] : List Issue) }
  else f1

/-- `IssueFS.flush` (issuefs.py lines 805-866): a no-op unless the
path is a `config.yaml` of an existing folder with a pending write
buffer; then the buffer is decoded (`parse` abstracts utf-8 decoding
plus `yaml.safe_load`) and the folder updated via `flushFolder`.  The
buffer itself is kept (only `release` discards it). -/
def flush (parse : List Nat → ParseResult) (cs : Clients) (now : Nat)
    (st : FSState) (path : String) : FSState :=
  if !is_config_file path then st
  else
    match folderFromPath path with
    | none => st
    | some fname =>
      match alookup st.folders fname with
      | none => st
      | some folder =>
        match alookup st.file_handles path with
        | none => st
        | some buf =>
          { st with
            folders := aset st.folders fname (flushFolder cs now folder (parse buf)) }

/-! ### Persistent store (`_save_config` / `_load_config`)

The store file's YAML serialisation is handled by the external yaml
library; the model works on the document structure directly and
represents a missing or unparseable store file as `none`. -/

/-- One folder entry as written by `_save_config` (issuefs.py lines
454-464): the flags and the three backend configurations. -/
structure SavedFolder where
  enabled : Bool
  persistent : Bool
  jira_config : JiraConfig
  github_config : GithubConfig
  bugzilla_config : BugzillaConfig
deriving DecidableEq, Repr

/-- The projection of a `QueryFolder` that `_save_config` writes. -/
def toSaved (f : QueryFolder) : SavedFolder :=
  ⟨f.enabled, f.persistent, f.jira_config, f.github_config, f.bugzilla_config⟩

/-- One mountpoint section of the store: its folders and the
`last_updated` save timestamp. -/
structure MountSection where
  folders : List (String × SavedFolder)
  last_updated : String
deriving DecidableEq, Repr

/-- The whole persistent store document (`mountpoints:` mapping). -/
structure Store where
  mountpoints : List (String × MountSection)
deriving DecidableEq, Repr

/-- The persistent subset computed by `_save_config`: the folders with
`persistent = true`, in map order, projected to their saved fields. -/
def persistentFolders (folders : List (String × QueryFolder)) :
    List (String × SavedFolder) :=
  (folders.filter (fun p => p.2.persistent)).map (fun p => (p.1, toSaved p.2))

/-- `IssueFS._save_config` (issuefs.py lines 451-505): when the
persistent subset is empty nothing is written (`none`); otherwise the
existing store (or an empty one when missing/unparseable, `prev =
none`) has only this mountpoint's section replaced by the subset plus
the save timestamp. -/
def save_config (folders : List (String × QueryFolder)) (mountpoint : String)
    (prev : Option Store) (timestamp : String) : Option Store :=
  let pf := persistentFolders folders
  if pf = [] then none
  else
    let data := prev.getD ⟨[]⟩
    some ⟨aset data.mountpoints mountpoint ⟨pf, timestamp⟩⟩

/-- Rebuilding a `QueryFolder` from a saved entry, as `_load_config`
does (issuefs.py lines 401-415): configuration fields restored, cache
empty. -/
def loadedFolder (name : String) (sf : SavedFolder) : QueryFolder :=
  ⟨name, sf.enabled, sf.persistent, sf.jira_config, sf.github_config,
    sf.bugzilla_config, [], 0⟩

/-- The per-entry step of `_load_config`: install the rebuilt folder
and refresh it at once when it is enabled (issuefs.py lines 442-444). -/
def loadOne (cs : Clients) (now : Nat) (p : String × SavedFolder) : QueryFolder :=
  let f := loadedFolder p.1 p.2
  if f.enabled then update_issues f cs now else f

/-- `IssueFS._load_config` (issuefs.py lines 377-449): a missing or
unparseable store, a missing mountpoint section, or an empty folder
map loads nothing; otherwise every saved folder is rebuilt into the
folder map (`folders0` is the map before loading, `{}` at mount). -/
def load_config (store : Option Store) (mountpoint : String) (cs : Clients)
    (now : Nat) (folders0 : List (String × QueryFolder)) :
    List (String × QueryFolder) :=
  match store with
  | none => folders0
  | some data =>
    match alookup data.mountpoints mountpoint with
    | none => folders0
    | some sect =>
      if sect.folders = [] then folders0
      else
        sect.folders.foldl (fun acc p => aset acc p.1 (loadOne cs now p)) folders0

/-- The configuration-field view of a folder: everything except the
issue cache and the refresh stamp. -/
def configView (f : QueryFolder) :
    Bool × Bool × JiraConfig × GithubConfig × BugzillaConfig :=
  (f.enabled, f.persistent, f.jira_config, f.github_config, f.bugzilla_config)


/-! ### Association list lemmas -/

theorem alookup_aset_self {α : Type} (m : List (String × α)) (k : String) (v : α) :
    alookup (aset m k v) k = some v := by
  induction m with
  | nil => simp [aset, alookup]
  | cons p rest ih =>
    obtain ⟨k1, v1⟩ := p
    by_cases h : k1 = k
    · simp [aset, h, alookup]
    · simp [aset, h, alookup, ih]

theorem alookup_aset_ne {α : Type} (m : List (String × α)) (k k1 : String) (v : α)
    (h : k1 ≠ k) : alookup (aset m k v) k1 = alookup m k1 := by
  induction m with
  | nil => simp [aset, alookup, Ne.symm h]
  | cons p rest ih =>
    obtain ⟨k2, v2⟩ := p
    by_cases h2 : k2 = k
    · subst h2
      simp [aset, alookup, Ne.symm h]
    · simp [aset, alookup, h2, ih]

theorem alookup_none_of_not_mem {α : Type} (m : List (String × α)) (k : String)
    (h : k ∉ m.map Prod.fst) : alookup m k = none := by
  induction m with
  | nil => rfl
  | cons p rest ih =>
    obtain ⟨k1, v1⟩ := p
    simp only [List.map_cons, List.mem_cons, not_or] at h
    simp [alookup, Ne.symm h.1, ih h.2]

theorem mem_of_alookup_some {α : Type} (m : List (String × α)) (k : String) (v : α)
    (h : alookup m k = some v) : k ∈ m.map Prod.fst := by
  induction m with
  | nil => simp [alookup] at h
  | cons p rest ih =>
    obtain ⟨k1, v1⟩ := p
    by_cases h1 : k1 = k
    · simp [h1]
    · simp only [alookup, h1, if_false] at h
      simp [ih h]

theorem alookup_aerase_self {α : Type} (m : List (String × α)) (k : String)
    (h : (m.map Prod.fst).Nodup) : alookup (aerase m k) k = none := by
  induction m with
  | nil => rfl
  | cons p rest ih =>
    obtain ⟨k1, v1⟩ := p
    simp only [List.map_cons, List.nodup_cons] at h
    by_cases h1 : k1 = k
    · subst h1
      simpa [aerase] using alookup_none_of_not_mem rest k1 h.1
    · simp [aerase, alookup, h1, ih h.2]

/-- `List.drop n` of an `n`-fold replicate is empty (used for the
write-buffer splice at offset 0). -/
theorem drop_replicate_self {α : Type} (n : Nat) (a : α) :
    List.drop n (List.replicate n a) = [] := by
  induction n with
  | zero => rfl
  | succ k ih => simpa [List.replicate] using ih

/-! ### Configuration-preservation lemmas -/

/-- The refresh algorithm only rewrites the cache and the stamp: the
configuration fields survive unchanged. -/
theorem configView_update_issues (f : QueryFolder) (cs : Clients) (now : Nat) :
    configView (update_issues f cs now) = configView f := by
  simp only [update_issues]
  split
  · rfl
  · split <;> rfl

/-- The per-folder flush effect never touches the configuration fields
beyond what `from_yaml` installed. -/
theorem configView_flushFolder (cs : Clients) (now : Nat) (folder : QueryFolder)
    (r : ParseResult) :
    configView (flushFolder cs now folder r) = configView (from_yaml folder r) := by
  simp only [flushFolder]
  split
  · split
    · exact configView_update_issues _ _ _
    · rfl
  · split <;> rfl

/-! ### Lemmas about the persistent subset and the load fold -/

theorem persistentFolders_cons (k : String) (f : QueryFolder)
    (rest : List (String × QueryFolder)) :
    persistentFolders ((k, f) :: rest) =
      if f.persistent then (k, toSaved f) :: persistentFolders rest
      else persistentFolders rest := by
  simp only [persistentFolders, List.filter_cons]
  cases hp : f.persistent <;> simp [hp]

theorem persistentFolders_not_mem (folders : List (String × QueryFolder))
    (name : String) (h : name ∉ folders.map Prod.fst) :
    alookup (persistentFolders folders) name = none := by
  induction folders with
  | nil => rfl
  | cons p rest ih =>
    obtain ⟨k, f⟩ := p
    simp only [List.map_cons, List.mem_cons, not_or] at h
    rw [persistentFolders_cons]
    cases hp : f.persistent with
    | true => simp [alookup, Ne.symm h.1, ih h.2]
    | false => simp [ih h.2]

theorem persistentFolders_alookup (folders : List (String × QueryFolder))
    (name : String) (h : (folders.map Prod.fst).Nodup) :
    alookup (persistentFolders folders) name =
      (alookup folders name).bind
        (fun f => if f.persistent then some (toSaved f) else none) := by
  induction folders with
  | nil => rfl
  | cons p rest ih =>
    obtain ⟨k, f⟩ := p
    simp only [List.map_cons, List.nodup_cons] at h
    rw [persistentFolders_cons]
    by_cases hk : k = name
    · subst hk
      cases hp : f.persistent with
      | true => simp [alookup, hp]
      | false => simp [alookup, hp, persistentFolders_not_mem rest k h.1]
    · cases hp : f.persistent with
      | true => simp [alookup, hk, ih h.2]
      | false => simp [alookup, hk, ih h.2]

theorem persistentFolders_keys_sublist (folders : List (String × QueryFolder)) :
    List.Sublist ((persistentFolders folders).map Prod.fst)
      (folders.map Prod.fst) := by
  induction folders with
  | nil => simp [persistentFolders]
  | cons p rest ih =>
    obtain ⟨k, f⟩ := p
    rw [persistentFolders_cons]
    cases hp : f.persistent with
    | true => simpa using List.Sublist.cons₂ k ih
    | false => simpa using List.Sublist.cons k ih

theorem persistentFolders_keys_nodup (folders : List (String × QueryFolder))
    (h : (folders.map Prod.fst).Nodup) :
    ((persistentFolders folders).map Prod.fst).Nodup :=
  List.Nodup.sublist (persistentFolders_keys_sublist folders) h

theorem alookup_isSome_of_mem {α : Type} (m : List (String × α)) (k : String)
    (h : k ∈ m.map Prod.fst) : (alookup m k).isSome = true := by
  induction m with
  | nil => simp at h
  | cons p rest ih =>
    obtain ⟨k1, v1⟩ := p
    by_cases h1 : k1 = k
    · simp [alookup, h1]
    · simp only [List.map_cons, List.mem_cons] at h
      rcases h with h | h
      · exact absurd h.symm h1
      · simp [alookup, h1, ih h]

theorem load_foldl_not_mem (cs : Clients) (now : Nat)
    (l : List (String × SavedFolder)) (init : List (String × QueryFolder))
    (name : String) (h : name ∉ l.map Prod.fst) :
    alookup (l.foldl (fun acc p => aset acc p.1 (loadOne cs now p)) init) name =
      alookup init name := by
  induction l generalizing init with
  | nil => rfl
  | cons p rest ih =>
    simp only [List.map_cons, List.mem_cons, not_or] at h
    simp only [List.foldl_cons]
    rw [ih _ h.2, alookup_aset_ne _ _ _ _ h.1]

theorem load_foldl_mem (cs : Clients) (now : Nat)
    (l : List (String × SavedFolder)) (init : List (String × QueryFolder))
    (name : String) (sf : SavedFolder)
    (hnd : (l.map Prod.fst).Nodup) (h : alookup l name = some sf) :
    alookup (l.foldl (fun acc p => aset acc p.1 (loadOne cs now p)) init) name =
      some (loadOne cs now (name, sf)) := by
  induction l generalizing init with
  | nil => simp [alookup] at h
  | cons p rest ih =>
    obtain ⟨k, v⟩ := p
    simp only [List.map_cons, List.nodup_cons] at hnd
    simp only [List.foldl_cons]
    by_cases hk : k = name
    · subst hk
      simp [alookup] at h
      subst h
      rw [load_foldl_not_mem cs now rest _ k hnd.1]
      exact alookup_aset_self init k (loadOne cs now (k, v))
    · simp only [alookup, hk, if_false] at h
      exact ih _ hnd.2 h

/-- The per-entry load step keeps exactly the saved configuration
fields (the optional immediate refresh only touches the cache). -/
theorem configView_loadOne (cs : Clients) (now : Nat) (name : String)
    (sf : SavedFolder) :
    configView (loadOne cs now (name, sf)) =
      (sf.enabled, sf.persistent, sf.jira_config, sf.github_config,
        sf.bugzilla_config) := by
  simp only [loadOne]
  split
  · rw [configView_update_issues]; rfl
  · rfl

/-! ### Concrete fixtures used by counterexamples and evaluations -/

/-- No backend clients configured. -/
def noClients : Clients := ⟨none, none, none⟩

/-- An enabled folder with a JIRA query and one cached issue. -/
def folderEnabledJql : QueryFolder :=
  ⟨"f", true, false, ⟨"p", []⟩, ⟨"", "", []⟩, ⟨"", []⟩, [⟨"A"⟩], 0⟩

/-- A document that keeps the folder enabled but empties every backend
configuration. -/
def docEmptyAll : ConfigDoc :=
  ⟨true, false, some ⟨"", []⟩, some ⟨"", "", []⟩, some ⟨"", []⟩⟩

/-- A document identical to `folderEnabledJql`'s configuration except
that `persistent` is flipped to `true`. -/
def docPersistentOnly : ConfigDoc :=
  ⟨true, true, some ⟨"p", []⟩, some ⟨"", "", []⟩, some ⟨"", []⟩⟩

/-- State holding `folderEnabledJql` and a pending buffer `[1]` for
its `config.yaml`. -/
def stBufOne : FSState := ⟨[("f", folderEnabledJql)], [("/f/config.yaml", [1])]⟩

/-- Decoder sending buffer `[1]` to `docEmptyAll`, all else a parse
error. -/
def parseToEmptyAll : List Nat → ParseResult :=
  fun b => if b = [1] then ParseResult.ok docEmptyAll else ParseResult.err

/-- Decoder sending buffer `[1]` to `docPersistentOnly`. -/
def parseToPersistentOnly : List Nat → ParseResult :=
  fun b => if b = [1] then ParseResult.ok docPersistentOnly else ParseResult.err

/-- A JIRA client whose query `p` finds issue `B`. -/
def jiraFindsB : JiraClient :=
  ⟨fun q => if q = "p" then Except.ok [⟨"B"⟩] else Except.ok [],
   fun _ => Except.ok none⟩

/-- Clients with only the JIRA client `jiraFindsB`. -/
def clientsJiraB : Clients := ⟨some jiraFindsB, none, none⟩

/-- A GitHub client whose query `bug` on repo `o/r` finds issue 7 and
whose explicit lookup of id `7` also returns it. -/
def githubFindsSeven : GithubClient :=
  ⟨fun q r => if q = "bug" ∧ r = "o/r" then Except.ok [⟨"GITHUB-7"⟩] else Except.ok [],
   fun i r => if i = "7" ∧ r = "o/r" then Except.ok (some ⟨"GITHUB-7"⟩) else Except.ok none⟩

/-- Clients with only the GitHub client `githubFindsSeven`. -/
def clientsGithubSeven : Clients := ⟨none, some githubFindsSeven, none⟩

/-- An enabled GitHub folder whose query and explicit-id list both
name issue 7. -/
def folderGithubSeven : QueryFolder :=
  ⟨"g", true, false, ⟨"", []⟩, ⟨"o/r", "bug", ["7"]⟩, ⟨"", []⟩, [], 0⟩

/-- The anomalous but reachable state: an enabled folder with no
backend configuration whose cache is nonetheless nonempty (it arises
from `flush` on `stBufOne` with `parseToEmptyAll`). -/
def folderAnomalous : QueryFolder :=
  ⟨"f", true, false, ⟨"", []⟩, ⟨"", "", []⟩, ⟨"", []⟩, [⟨"A"⟩], 0⟩

/-- State holding `folderAnomalous` and a pending buffer `[3]`. -/
def stAnomalous : FSState := ⟨[("f", folderAnomalous)], [("/f/config.yaml", [3])]⟩

/-- Decoder that always fails (structurally invalid YAML). -/
def parseAlwaysErr : List Nat → ParseResult := fun _ => ParseResult.err

/-- State holding one default (freshly created) folder `f`. -/
def stDefaultF : FSState := ⟨[("f", QueryFolder.init ("f"))], []⟩

/-- A folder marked persistent (disabled, fully configured). -/
def folderPersistent : QueryFolder :=
  ⟨"a", false, true, ⟨"j", ["1"]⟩, ⟨"r", "q", ["2"]⟩, ⟨"b", ["3"]⟩, [], 0⟩

/-- A sibling folder not marked persistent. -/
def folderTransient : QueryFolder :=
  ⟨"b", true, false, ⟨"x", []⟩, ⟨"", "", []⟩, ⟨"", []⟩, [⟨"K"⟩], 0⟩

/-- A document replacing the JIRA query by `q2`, everything else as in
`folderEnabledJql` (enabled, not persistent). -/
def docJqlQ2 : ConfigDoc :=
  ⟨true, false, some ⟨"q2", []⟩, some ⟨"", "", []⟩, some ⟨"", []⟩⟩

/-- Decoder sending buffer `[1]` to `docJqlQ2`. -/
def parseToJqlQ2 : List Nat → ParseResult :=
  fun b => if b = [1] then ParseResult.ok docJqlQ2 else ParseResult.err

/-! ### Claim theorems -/

/-- Claim C2 (code bug), evaluated at the failing input: the folder is
enabled, the decoded configuration empties every backend (so a tracked
field changed and no backend holds a query or id), yet `flush` returns
with the stale cache `[A]` retained — the `elif` that clears the cache
is skipped because the `if enabled and config_changed` branch was
taken and its inner validity test failed.  The spec (and the source's
own comment on line 865, "Clear issues if disabled or no valid
config") require the cache to be empty here. -/
theorem flush_enabled_changed_invalid_retains_cache :
    alookup (flush parseToEmptyAll noClients 7 stBufOne ("/f/config.yaml")).folders ("f") =
      some ⟨"f", true, false, ⟨"", []⟩, ⟨"", "", []⟩, ⟨"", []⟩, [⟨"A"⟩], 0⟩ := by
  decide

/-- Claim C4 (code bug), evaluated at the failing input: a GitHub
query and an explicit id both naming issue 7.  The explicit-id dedup
test compares the raw id `7` against `seen_keys`, which holds the
prefixed key `GITHUB-7`, so the issue is fetched and appended again:
the cache ends with the key `GITHUB-7` twice, violating the key
uniqueness invariant. -/
theorem update_issues_duplicate_key_bug :
    (update_issues folderGithubSeven clientsGithubSeven 3).issues =
      [⟨"GITHUB-7"⟩, ⟨"GITHUB-7"⟩]
    ∧ ¬ ((update_issues folderGithubSeven clientsGithubSeven 3).issues.map
        Issue.key).Nodup := by
  decide

/-- Claim C1, counterexample: flipping only the `persistent` flag of an
enabled folder (everything else, including the JIRA query `p`, kept
identical).  The claim counts `persistent` among the diffed fields and
hence demands a refresh, which with `clientsJiraB` would replace the
cache by `[B]`; the code's `config_changed` does not compare
`persistent`, so `flush` leaves the cache at `[A]` and never calls the
refresh algorithm. -/
theorem flush_persistent_only_no_refresh_cex :
    alookup (flush parseToPersistentOnly clientsJiraB 9 stBufOne ("/f/config.yaml")).folders ("f") =
      some ⟨"f", true, true, ⟨"p", []⟩, ⟨"", "", []⟩, ⟨"", []⟩, [⟨"A"⟩], 0⟩
    ∧ (update_issues (from_yaml folderEnabledJql (ParseResult.ok docPersistentOnly))
        clientsJiraB 9).issues = [⟨"B"⟩] := by
  decide

/-- Claim C3, counterexample: in the reachable state `stAnomalous`
(produced by the C2 bug: enabled, no backend configuration, nonempty
cache), a flush whose buffered bytes fail to decode does NOT leave all
folder state intact — the configuration is retained and no refresh
runs, but the `elif` clears the cached issue list from `[A]` to
`[]`. -/
theorem flush_parse_error_clears_anomalous_cache_cex :
    parseAlwaysErr [3] = ParseResult.err
    ∧ folderAnomalous.issues = [⟨"A"⟩]
    ∧ alookup (flush parseAlwaysErr noClients 5 stAnomalous ("/f/config.yaml")).folders ("f") =
        some { folderAnomalous with issues := ([] : List Issue) } := by
  decide

/-- Claim C7, counterexample: folder `f` exists with an empty issue
cache, so no cached issue has key `GHOST`, yet `open` of
`/f/GHOST.txt` succeeds (returns handle 0) instead of failing
`ENOENT`: the source accepts any `.txt` filename inside an existing
folder without consulting the cache. -/
theorem open_uncached_txt_cex :
    (alookup stDefaultF.folders ("f")).map QueryFolder.issues = some []
    ∧ fsOpen stDefaultF ("/f/GHOST.txt") = Except.ok 0 := by
  exact ⟨by decide, rfl⟩

/-- Claim C8 (confirmed): `mkdir` of an existing root-level name fails
`EEXIST`; `rmdir` of an unknown root-level name fails `ENOENT`;
`mkdir` or `rmdir` of a path with a truthy second component (one level
below root) fails `EACCES` (permission denied); and `unlink` always
fails `EACCES`. -/
theorem mkdir_rmdir_unlink_errors (st : FSState) (path : String) :
    (∀ fname, folderFromPath path = some fname →
      optTruthy (fileFromPath path) = false →
      (alookup st.folders fname).isSome = true →
      mkdir st path = Except.error FuseError.EEXIST)
    ∧ (∀ fname, folderFromPath path = some fname →
      optTruthy (fileFromPath path) = false →
      alookup st.folders fname = none →
      rmdir st path = Except.error FuseError.ENOENT)
    ∧ (optTruthy (fileFromPath path) = true →
      mkdir st path = Except.error FuseError.EACCES
      ∧ rmdir st path = Except.error FuseError.EACCES)
    ∧ unlink st path = Except.error FuseError.EACCES := by
  refine ⟨?_, ?_, ?_, rfl⟩
  · intro fname h1 h2 h3
    cases hl : alookup st.folders fname with
    | none => rw [hl] at h3; simp at h3
    | some v => simp [mkdir, h1, h2, hl]
  · intro fname h1 h2 h3
    simp [rmdir, h1, h2, h3]
  · intro h
    cases hf : folderFromPath path with
    | none => exact ⟨by simp [mkdir, hf], by simp [rmdir, hf]⟩
    | some fname => exact ⟨by simp [mkdir, hf, h], by simp [rmdir, hf, h]⟩

/-- Witness for C8 at concrete inputs: `f` exists in `stDefaultF`,
`g` does not, `/f/x` is nested, and `unlink` of a config file fails. -/
theorem mkdir_rmdir_unlink_errors_witness :
    mkdir stDefaultF ("/f") = Except.error FuseError.EEXIST
    ∧ rmdir stDefaultF ("/g") = Except.error FuseError.ENOENT
    ∧ mkdir stDefaultF ("/f/x") = Except.error FuseError.EACCES
    ∧ rmdir stDefaultF ("/f/x") = Except.error FuseError.EACCES
    ∧ unlink stDefaultF ("/f/config.yaml") = Except.error FuseError.EACCES := by
  have h1 := mkdir_rmdir_unlink_errors stDefaultF ("/f")
  have h2 := mkdir_rmdir_unlink_errors stDefaultF ("/g")
  have h3 := mkdir_rmdir_unlink_errors stDefaultF ("/f/x")
  have h4 := mkdir_rmdir_unlink_errors stDefaultF ("/f/config.yaml")
  exact ⟨h1.1 ("f") rfl rfl (by decide), h2.2.1 ("g") rfl rfl (by decide),
    (h3.2.2.1 (by decide)).1, (h3.2.2.1 (by decide)).2, h4.2.2.2⟩

/-- Claim C9 (confirmed): a folder created by `mkdir` at root level is
in the default state — disabled, not persistent, every backend
configuration empty (for GitHub also the repo), empty explicit-id
lists and an empty cache — and `readdir` of the new folder immediately
afterwards yields exactly `config.yaml` besides the two dot
entries. -/
theorem mkdir_default_state (st : FSState) (path : String) (fname : String)
    (h1 : folderFromPath path = some fname)
    (h2 : optTruthy (fileFromPath path) = false)
    (h3 : alookup st.folders fname = none) :
    mkdir st path =
      Except.ok { st with folders := aset st.folders fname (QueryFolder.init fname) }
    ∧ QueryFolder.init fname =
      ⟨fname, false, false, ⟨"", []⟩, ⟨"", "", []⟩, ⟨"", []⟩, [], 0⟩
    ∧ readdir { st with folders := aset st.folders fname (QueryFolder.init fname) }
        path = [".", "..", "config.yaml"] := by
  have hroot : path ≠ "/" := by
    intro e
    have hnone : folderFromPath ("/") = none := rfl
    rw [e, hnone] at h1
    exact Option.noConfusion h1
  refine ⟨by simp [mkdir, h1, h2, h3], rfl, ?_⟩
  simp [readdir, hroot, h1, alookup_aset_self, QueryFolder.init]

/-- Witness for C9: creating `q` in the empty filesystem. -/
theorem mkdir_default_state_witness :
    mkdir (⟨[], []⟩ : FSState) ("/q") =
      Except.ok ⟨[("q", QueryFolder.init ("q"))], []⟩
    ∧ readdir ⟨[("q", QueryFolder.init ("q"))], []⟩ ("/q") =
      [".", "..", "config.yaml"] := by
  have h := mkdir_default_state ⟨[], []⟩ ("/q") ("q") rfl rfl rfl
  exact ⟨h.1, h.2.2⟩

/-- The eight-field diff of a folder against itself is no change. -/
theorem config_changed_self (f : QueryFolder) : config_changed f f = false := by
  simp [config_changed]

/-- Claim C3 (amended): when the buffered bytes fail to decode, flush
reports the parse error, keeps the whole prior configuration
(`enabled`, `persistent`, all backend configs — `from_yaml` mutates
nothing) and triggers no refresh; the cached issue list is also kept,
EXCEPT that when the retained configuration is disabled or has no
valid backend configuration the cache is cleared (a no-op in every
state whose cache is already empty there, but an observable mutation
in the anomalous states the C2 bug produces). -/
theorem flush_parse_error_preserves_config (parse : List Nat → ParseResult)
    (cs : Clients) (now : Nat) (st : FSState) (path fname : String)
    (folder : QueryFolder) (buf : List Nat)
    (h1 : folderFromPath path = some fname)
    (h2 : is_config_file path = true)
    (h3 : alookup st.folders fname = some folder)
    (h4 : alookup st.file_handles path = some buf)
    (h5 : parse buf = ParseResult.err) :
    flush parse cs now st path =
      { st with folders := aset st.folders fname (
          if !folder.enabled || !(has_any_config folder) then
            { folder with issues := ([] : List Issue) }
          else folder) } := by
  simp [flush, h1, h2, h3, h4, h5, flushFolder, from_yaml, config_changed_self]

/-- Witness for C3's amended theorem: a parse failure on an enabled,
validly configured folder leaves the state exactly as it was. -/
theorem flush_parse_error_preserves_config_witness :
    flush parseAlwaysErr noClients 11 stBufOne ("/f/config.yaml") =
      ⟨[("f", folderEnabledJql)], [("/f/config.yaml", [1])]⟩ := by
  have h := flush_parse_error_preserves_config parseAlwaysErr noClients 11 stBufOne
    ("/f/config.yaml") ("f") folderEnabledJql [1] rfl rfl rfl rfl rfl
  rw [h]; decide

/-- Claim C1 (amended): on a successful decode, flush diffs `enabled`
and each backend's query fields and explicit-id list against the prior
configuration (the `persistent` flag is NOT among the diffed fields),
and when the folder is enabled, at least one diffed field changed, and
at least one backend holds a usable configuration (JIRA query or ids;
GitHub repo together with query or ids; Bugzilla query or ids), it
synchronously runs the refresh algorithm `update_issues` before
returning. -/
theorem flush_refresh_condition (parse : List Nat → ParseResult)
    (cs : Clients) (now : Nat) (st : FSState) (path fname : String)
    (folder : QueryFolder) (buf : List Nat) (doc : ConfigDoc)
    (h1 : folderFromPath path = some fname)
    (h2 : is_config_file path = true)
    (h3 : alookup st.folders fname = some folder)
    (h4 : alookup st.file_handles path = some buf)
    (h5 : parse buf = ParseResult.ok doc)
    (h6 : (from_yaml folder (ParseResult.ok doc)).enabled = true)
    (h7 : config_changed folder (from_yaml folder (ParseResult.ok doc)) = true)
    (h8 : has_any_config (from_yaml folder (ParseResult.ok doc)) = true) :
    flush parse cs now st path =
      { st with folders := aset st.folders fname (
          update_issues (from_yaml folder (ParseResult.ok doc)) cs now) } := by
  simp [flush, h1, h2, h3, h4, h5, flushFolder, h6, h7, h8]

/-- Witness for C1's amended theorem: changing the JIRA query of an
enabled folder triggers a synchronous refresh. -/
theorem flush_refresh_condition_witness :
    flush parseToJqlQ2 clientsJiraB 13 stBufOne ("/f/config.yaml") =
      ⟨[("f", ⟨"f", true, false, ⟨"q2", []⟩, ⟨"", "", []⟩, ⟨"", []⟩, [], 13⟩)],
        [("/f/config.yaml", [1])]⟩ := by
  have h := flush_refresh_condition parseToJqlQ2 clientsJiraB 13 stBufOne
    ("/f/config.yaml") ("f") folderEnabledJql [1] docJqlQ2 rfl rfl rfl rfl rfl
    (by decide) (by decide) (by decide)
  rw [h]; decide

/-- Claim C7 (amended): `open` succeeds (returns handle 0) exactly for
`/version.txt` and for any path inside an existing folder whose truthy
filename component is `config.yaml` or merely ends in `.txt` — whether
or not a cached issue bears that name; every other path fails
`ENOENT`. -/
theorem open_characterization (st : FSState) (path : String) :
    fsOpen st path = Except.ok 0 ↔
      (path = "/version.txt"
        ∨ ∃ fname filename, folderFromPath path = some fname
            ∧ fileFromPath path = some filename
            ∧ filename ≠ ""
            ∧ (alookup st.folders fname).isSome = true
            ∧ (filename = "config.yaml" ∨ strEndsWith filename (".txt") = true)) := by
  by_cases hv : path = "/version.txt"
  · simp [fsOpen, hv]
  cases hf : folderFromPath path with
  | none => simp [fsOpen, hv, hf]
  | some fname =>
    cases hg : fileFromPath path with
    | none => simp [fsOpen, hv, hf, hg]
    | some filename =>
      by_cases he : filename = ""
      · simp [fsOpen, hv, hf, hg, he]
      cases hl : alookup st.folders fname with
      | none => simp [fsOpen, hv, hf, hg, he, hl]
      | some folder =>
        by_cases hc : filename = "config.yaml" ∨ strEndsWith filename (".txt") = true
        · simp [fsOpen, hv, hf, hg, he, hl, hc]
        · simp only [not_or] at hc
          simp [fsOpen, hv, hf, hg, he, hl, hc.1, hc.2]

/-- Claim C10 (confirmed): `rmdir` removes only the folder-map entry
and leaves the write-buffer map untouched, so after the sequence
write(`/f/config.yaml`), rmdir(`/f`), mkdir(`/f`),
flush(`/f/config.yaml`), the flush decodes the bytes buffered before
the folder was removed and applies them to the recreated folder (the
resulting configuration is the one `from_yaml` computes from the old
buffer on a default folder), while the buffer itself still awaits
`release`. -/
theorem rmdir_keeps_buffer_seq (st : FSState) (f0 : QueryFolder)
    (buf : List Nat) (parse : List Nat → ParseResult) (cs : Clients)
    (now : Nat) (doc : ConfigDoc)
    (hnd : (st.folders.map Prod.fst).Nodup)
    (h1 : alookup st.folders ("f") = some f0)
    (h2 : alookup st.file_handles ("/f/config.yaml") = none)
    (h3 : parse buf = ParseResult.ok doc) :
    write st ("/f/config.yaml") buf 0 =
      Except.ok (⟨st.folders, aset st.file_handles ("/f/config.yaml") buf⟩, buf.length)
    ∧ rmdir ⟨st.folders, aset st.file_handles ("/f/config.yaml") buf⟩ ("/f") =
      Except.ok ⟨aerase st.folders ("f"), aset st.file_handles ("/f/config.yaml") buf⟩
    ∧ mkdir ⟨aerase st.folders ("f"), aset st.file_handles ("/f/config.yaml") buf⟩ ("/f") =
      Except.ok ⟨aset (aerase st.folders ("f")) ("f") (QueryFolder.init ("f")),
        aset st.file_handles ("/f/config.yaml") buf⟩
    ∧ (alookup (flush parse cs now
        ⟨aset (aerase st.folders ("f")) ("f") (QueryFolder.init ("f")),
          aset st.file_handles ("/f/config.yaml") buf⟩ ("/f/config.yaml")).folders
        ("f")).map configView =
      some (configView (from_yaml (QueryFolder.init ("f")) (ParseResult.ok doc)))
    ∧ (flush parse cs now
        ⟨aset (aerase st.folders ("f")) ("f") (QueryFolder.init ("f")),
          aset st.file_handles ("/f/config.yaml") buf⟩ ("/f/config.yaml")).file_handles =
      aset st.file_handles ("/f/config.yaml") buf := by
  have herase : alookup (aerase st.folders ("f")) ("f") = none :=
    alookup_aerase_self st.folders ("f") hnd
  have hset : alookup (aset (aerase st.folders ("f")) ("f") (QueryFolder.init ("f")))
      ("f") = some (QueryFolder.init ("f")) :=
    alookup_aset_self (aerase st.folders ("f")) ("f") (QueryFolder.init ("f"))
  have hbuf : alookup (aset st.file_handles ("/f/config.yaml") buf)
      ("/f/config.yaml") = some buf :=
    alookup_aset_self st.file_handles ("/f/config.yaml") buf
  have hcfg : is_config_file ("/f/config.yaml") = true := rfl
  have hfp : folderFromPath ("/f/config.yaml") = some ("f") := rfl
  have hfp2 : folderFromPath ("/f") = some ("f") := rfl
  have hot : optTruthy (fileFromPath ("/f")) = false := rfl
  refine ⟨?_, ?_, ?_, ?_, ?_⟩
  · cases buf with
    | nil => simp [write, h1, h2, hcfg, hfp]
    | cons b bs => simp [write, h1, h2, hcfg, hfp, drop_replicate_self]
  · simp [rmdir, h1, hfp2, hot]
  · simp [mkdir, herase, hfp2, hot]
  · simp [flush, hcfg, hfp, hset, hbuf, h3, alookup_aset_self, configView_flushFolder]
  · simp [flush, hcfg, hfp, hset, hbuf, h3]

/-- Replacing a raised search exception by an empty result list. -/
def purifyList (r : Except Unit (List Issue)) : Except Unit (List Issue) :=
  match r with
  | Except.error _ => Except.ok []
  | Except.ok l => Except.ok l

/-- Replacing a raised lookup exception by a `None` result. -/
def purifyOpt (r : Except Unit (Option Issue)) : Except Unit (Option Issue) :=
  match r with
  | Except.error _ => Except.ok none
  | Except.ok o => Except.ok o

/-- The same clients with every raised exception replaced by an empty
success: a failing search finds nothing, a failing lookup returns
`None`. -/
def purifyClients (cs : Clients) : Clients :=
  ⟨cs.jira.map (fun c => ⟨fun q => purifyList (c.search q),
      fun i => purifyOpt (c.get_issue i)⟩),
    cs.github.map (fun c => ⟨fun q r => purifyList (c.search q r),
      fun i r => purifyOpt (c.get_issue i r)⟩),
    cs.bugzilla.map (fun c => ⟨fun q => purifyList (c.search q),
      fun i => purifyOpt (c.get_issue i)⟩)⟩

theorem explicitStep_purify (g : String → Except Unit (Option Issue))
    (acc : Acc) (x : String) :
    explicitStep (fun i => purifyOpt (g i)) acc x = explicitStep g acc x := by
  unfold explicitStep
  cases hc : acc.2.contains x with
  | false =>
    cases hg : g x with
    | error e => simp [hg, purifyOpt]
    | ok o => cases o <;> simp [hg, purifyOpt]
  | true => simp

theorem addExplicit_purify (g : String → Except Unit (Option Issue))
    (ids : List String) (st : Acc) :
    addExplicit (fun i => purifyOpt (g i)) st ids = addExplicit g st ids := by
  induction ids generalizing st with
  | nil => rfl
  | cons x rest ih =>
    simp only [addExplicit, List.foldl_cons]
    rw [explicitStep_purify]
    exact ih (explicitStep g st x)

theorem githubExplicitStep_purify (g : String → String → Except Unit (Option Issue))
    (repo : String) (acc : Acc) (x : String) :
    githubExplicitStep (fun i r => purifyOpt (g i r)) repo acc x =
      githubExplicitStep g repo acc x := by
  unfold githubExplicitStep
  cases hc : acc.2.contains x with
  | false =>
    by_cases hr : repo = ""
    · simp [hr]
    · cases hg : g x repo with
      | error e => simp [hr, hg, purifyOpt]
      | ok o => cases o <;> simp [hr, hg, purifyOpt]
  | true => simp

theorem addExplicitGithub_purify (g : String → String → Except Unit (Option Issue))
    (repo : String) (ids : List String) (st : Acc) :
    addExplicitGithub (fun i r => purifyOpt (g i r)) repo st ids =
      addExplicitGithub g repo st ids := by
  induction ids generalizing st with
  | nil => rfl
  | cons x rest ih =>
    simp only [addExplicitGithub, List.foldl_cons]
    rw [githubExplicitStep_purify]
    exact ih (githubExplicitStep g repo st x)

theorem processJira_purify (co : Option JiraClient) (cfg : JiraConfig) (st : Acc) :
    processJira (co.map (fun c => ⟨fun q => purifyList (c.search q),
      fun i => purifyOpt (c.get_issue i)⟩)) cfg st = processJira co cfg st := by
  cases co with
  | none => rfl
  | some cl =>
    simp only [Option.map_some', processJira]
    rw [addExplicit_purify]
    congr 1
    by_cases hq : cfg.jql = ""
    · simp [hq]
    · simp only [ne_eq, hq, not_false_eq_true, if_true]
      cases hs : cl.search cfg.jql with
      | error e => simp [purifyList, hs, addQueryResults]
      | ok qs => simp [purifyList, hs]

theorem processGithub_purify (co : Option GithubClient) (cfg : GithubConfig) (st : Acc) :
    processGithub (co.map (fun c => ⟨fun q r => purifyList (c.search q r),
      fun i r => purifyOpt (c.get_issue i r)⟩)) cfg st = processGithub co cfg st := by
  cases co with
  | none => rfl
  | some cl =>
    simp only [Option.map_some', processGithub]
    rw [addExplicitGithub_purify]
    congr 1
    by_cases hq : cfg.q ≠ "" ∧ cfg.repo ≠ ""
    · rw [if_pos hq, if_pos hq]
      cases hs : cl.search cfg.q cfg.repo with
      | error e => simp [purifyList, hs, addQueryResults]
      | ok qs => simp [purifyList, hs]
    · rw [if_neg hq, if_neg hq]

theorem processBugzilla_purify (co : Option BugzillaClient) (cfg : BugzillaConfig)
    (st : Acc) :
    processBugzilla (co.map (fun c => ⟨fun q => purifyList (c.search q),
      fun i => purifyOpt (c.get_issue i)⟩)) cfg st = processBugzilla co cfg st := by
  cases co with
  | none => rfl
  | some cl =>
    simp only [Option.map_some', processBugzilla]
    rw [addExplicit_purify]
    congr 1
    by_cases hq : cfg.query = ""
    · simp [hq]
    · simp only [ne_eq, hq, not_false_eq_true, if_true]
      cases hs : cl.search cfg.query with
      | error e => simp [purifyList, hs, addQueryResults]
      | ok qs => simp [purifyList, hs]

/-- Claim C5 (confirmed): every backend call is guarded individually —
a raised exception at any `search` or `get_issue` call is
observationally identical to that single call returning no results, so
the refresh continues with the remaining identifiers and backends and
every record appended from any other call (before or after the failing
one) is retained in the final list.  Formally, refreshing with the raw
clients equals refreshing with the clients whose failing calls are
replaced by empty successes. -/
theorem update_issues_errors_as_empty (f : QueryFolder) (cs : Clients) (now : Nat) :
    update_issues f cs now = update_issues f (purifyClients cs) now := by
  simp only [update_issues, purifyClients]
  split
  · rfl
  · rw [processJira_purify, processGithub_purify, processBugzilla_purify]

/-- Claim C6 (confirmed): `_save_config` writes only the subset of
folders with `persistent = true` and performs no write at all when
that subset is empty; a write replaces only this mount path's section
of the store; and a subsequent `_load_config` for the same mount path
reproduces each persistent folder with identical `enabled`,
`persistent` and per-backend configuration fields, while a folder not
marked persistent is absent after the reload. -/
theorem save_load_round_trip (folders : List (String × QueryFolder))
    (mountpoint : String) (prev : Option Store) (ts : String) (cs : Clients)
    (now : Nat) (hnd : (folders.map Prod.fst).Nodup) :
    (persistentFolders folders = [] →
      save_config folders mountpoint prev ts = none)
    ∧ (∀ st mp1, save_config folders mountpoint prev ts = some st →
        mp1 ≠ mountpoint →
        alookup st.mountpoints mp1 = alookup (prev.getD ⟨[]⟩).mountpoints mp1)
    ∧ (∀ st name f, save_config folders mountpoint prev ts = some st →
        alookup folders name = some f → f.persistent = true →
        alookup (load_config (some st) mountpoint cs now []) name =
          some (loadOne cs now (name, toSaved f))
        ∧ configView (loadOne cs now (name, toSaved f)) =
          (f.enabled, f.persistent, f.jira_config, f.github_config,
            f.bugzilla_config))
    ∧ (∀ st name f, save_config folders mountpoint prev ts = some st →
        alookup folders name = some f → f.persistent = false →
        alookup (load_config (some st) mountpoint cs now []) name = none) := by
  have hpfnd := persistentFolders_keys_nodup folders hnd
  refine ⟨?_, ?_, ?_, ?_⟩
  · intro hpf
    simp [save_config, hpf]
  · intro st mp1 hsave hne
    by_cases hpf : persistentFolders folders = []
    · simp [save_config, hpf] at hsave
    · simp only [save_config, hpf, if_false] at hsave
      have hst := Option.some.inj hsave
      subst hst
      exact alookup_aset_ne _ _ _ _ hne
  · intro st name f hsave hlf hpers
    by_cases hpf : persistentFolders folders = []
    · simp [save_config, hpf] at hsave
    · simp only [save_config, hpf, if_false] at hsave
      have hst := Option.some.inj hsave
      subst hst
      have hsect : alookup (aset (prev.getD ⟨[]⟩).mountpoints mountpoint
          ⟨persistentFolders folders, ts⟩) mountpoint =
          some ⟨persistentFolders folders, ts⟩ :=
        alookup_aset_self _ _ _
      have hlpf : alookup (persistentFolders folders) name = some (toSaved f) := by
        rw [persistentFolders_alookup folders name hnd, hlf]
        simp [hpers]
      simp only [load_config, hsect, hpf, if_false]
      exact ⟨load_foldl_mem cs now _ _ name (toSaved f) hpfnd hlpf,
        configView_loadOne cs now name (toSaved f)⟩
  · intro st name f hsave hlf hpers
    by_cases hpf : persistentFolders folders = []
    · simp [save_config, hpf] at hsave
    · simp only [save_config, hpf, if_false] at hsave
      have hst := Option.some.inj hsave
      subst hst
      have hsect : alookup (aset (prev.getD ⟨[]⟩).mountpoints mountpoint
          ⟨persistentFolders folders, ts⟩) mountpoint =
          some ⟨persistentFolders folders, ts⟩ :=
        alookup_aset_self _ _ _
      have hlpf : alookup (persistentFolders folders) name = none := by
        rw [persistentFolders_alookup folders name hnd, hlf]
        simp [hpers]
      have hnm : name ∉ (persistentFolders folders).map Prod.fst := by
        intro hmem
        have := alookup_isSome_of_mem (persistentFolders folders) name hmem
        rw [hlpf] at this
        exact Bool.noConfusion this
      simp only [load_config, hsect, hpf, if_false]
      rw [load_foldl_not_mem cs now _ _ name hnm]
      rfl

/-- Witness for C6: saving the map with persistent `a` and transient
`b` into an empty store, then loading for the same mount path:
`a` is reproduced, `b` is absent. -/
theorem save_load_round_trip_witness :
    alookup (load_config (some ⟨[("/mnt", ⟨[("a", toSaved folderPersistent)], "ts"⟩)]⟩)
        ("/mnt") noClients 0 []) ("a") =
      some (loadOne noClients 0 ("a", toSaved folderPersistent))
    ∧ alookup (load_config (some ⟨[("/mnt", ⟨[("a", toSaved folderPersistent)], "ts"⟩)]⟩)
        ("/mnt") noClients 0 []) ("b") = none := by
  have h := save_load_round_trip [("a", folderPersistent), ("b", folderTransient)]
    ("/mnt") none ("ts") noClients 0 (by decide)
  exact ⟨(h.2.2.1 ⟨[("/mnt", ⟨[("a", toSaved folderPersistent)], "ts"⟩)]⟩ ("a")
      folderPersistent (by decide) rfl rfl).1,
    h.2.2.2 ⟨[("/mnt", ⟨[("a", toSaved folderPersistent)], "ts"⟩)]⟩ ("b")
      folderTransient (by decide) rfl rfl⟩

/-- Witness for C10: write `[1]` into fresh folder `f`'s config, remove
and recreate the folder, then flush: the buffered document `docJqlQ2`
is applied to the recreated folder. -/
theorem rmdir_keeps_buffer_seq_witness :
    (alookup (flush parseToJqlQ2 noClients 0
        ⟨aset (aerase stDefaultF.folders ("f")) ("f") (QueryFolder.init ("f")),
          aset stDefaultF.file_handles ("/f/config.yaml") [1]⟩
        ("/f/config.yaml")).folders ("f")).map configView =
      some (configView (from_yaml (QueryFolder.init ("f")) (ParseResult.ok docJqlQ2))) := by
  exact (rmdir_keeps_buffer_seq stDefaultF (QueryFolder.init ("f")) [1] parseToJqlQ2
    noClients 0 docJqlQ2 (by decide) rfl rfl rfl).2.2.2.1

end IssueFS
